import Mathlib

/-!
Verification of the news-headlines scraper (`news_scraper.py`).

The script is embedded shallowly.  External libraries (`requests`,
`feedparser`, `datetime`, `dateutil`) are black boxes per the spec, so they
are bundled into an `Env` record of oracle functions; everything the script
itself computes is translated line by line.  Timestamps are modelled as `Int`
(only their linear order matters to the script).  Python string `.strip()` and
`.lower()` are modelled executably by `pstrip` and `plower`.
-/

/-- Python `str.strip()` on both ends (whitespace model). -/
def pstrip (s : String) : String :=
  String.mk (((s.toList.dropWhile Char.isWhitespace).reverse.dropWhile Char.isWhitespace).reverse)

/-- ASCII lower-casing of one character, as Python `str.lower()` does on ASCII. -/
def plowerChar (c : Char) : Char :=
  if 65 ≤ c.toNat ∧ c.toNat ≤ 90 then Char.ofNat (c.toNat + 32) else c

/-- Python `str.lower()` (ASCII model). -/
def plower (s : String) : String :=
  String.mk (s.toList.map plowerChar)

/-- One raw feedparser entry: the attributes the script reads via `getattr`,
each `none` when the attribute is absent.  `published_parsed` models
`time.struct_time` restricted to the six fields `datetime(*t[:6])` consumes;
a present `struct_time` is a non-empty sequence, hence always truthy. -/
structure FeedEntry where
  title : Option String
  link : Option String
  published : Option String
  updated : Option String
  published_parsed : Option (Int × Int × Int × Int × Int × Int)
deriving DecidableEq

/-- Result of `feedparser.parse`: the entry list and the `bozo` flag. -/
structure ParsedFeed where
  entries : List FeedEntry
  bozo : Bool
deriving DecidableEq

/-- The row dict built in `try_feed_urls` (lines 100-106 of the source). -/
structure HeadlineRecord where
  source : String
  title : String
  link : String
  published : String
  published_dt : Option Int
deriving DecidableEq

/-- The external world: `requests.get` (an exception carries a message),
`feedparser.parse`, `datetime(*t[:6])` (may raise, hence `Option`), and
`dateutil.parser.parse` (may raise, hence `Option`). -/
structure Env where
  httpGet : String → Except String (Nat × String × String)
  feedparse : String → ParsedFeed
  dtOfTuple : (Int × Int × Int × Int × Int × Int) → Option Int
  dateutilParse : String → Option Int

-- --- CONFIG (lines 19-34 of the source) ---

def FEEDS : List (String × List String) :=
  [("TechCrunch", ["https://techcrunch.com/feed/"]),
   ("Economic Times - Top Stories",
    ["https://b2b.economictimes.indiatimes.com/rss/topstories",
     "https://economictimes.indiatimes.com/feeds/newsdefault.cms",
     "https://economictimes.indiatimes.com/rssfeedsdefault.cms",
     "https://economictimes.indiatimes.com/defaultinterstitial.cms"])]

def HEADLINES_PER_SOURCE : Nat := 4

def MAX_PER_SOURCE_FOR_GLOBAL : Nat := 12

def TOTAL_GLOBAL_TOP : Nat := 4

/-- Line 32: mode selection from `sys.argv` (index 1 is the first argument). -/
def MODE (argv : List String) : String :=
  match argv.get? 1 with
  | some a => if plower a = "global" ∨ plower a = "global_top" then "global_top" else "per_source"
  | none => "per_source"

-- ---------------- functions ----------------

/-- `fetch_feed_text` (lines 43-49): returns `(status_code, text, content_type)`;
any exception from `requests.get` is converted into `(None, None, "error: ...")`. -/
def fetch_feed_text (env : Env) (url : String) : Option Nat × Option String × String :=
  match env.httpGet url with
  | Except.ok (status, body, ctype) => (some status, some body, ctype)
  | Except.error e => (none, none, "error: " ++ e)

/-- `parse_with_feedparser_from_text` (lines 51-53). -/
def parse_with_feedparser_from_text (env : Env) (text : String) : ParsedFeed :=
  env.feedparse text

/-- The per-entry normalization in the body of `try_feed_urls` (lines 83-106). -/
def normalizeEntry (env : Env) (debug_name : String) (e : FeedEntry) : HeadlineRecord :=
  let title := pstrip (e.title.getD "")
  let link := pstrip (e.link.getD "")
  let published := if (e.published.getD "") = "" then e.updated.getD "" else e.published.getD ""
  let published_dt : Option Int :=
    match e.published_parsed with
    | some t => env.dtOfTuple t
    | none => if published = "" then none else env.dateutilParse published
  ⟨debug_name, title, link, published, published_dt⟩

/-- `try_feed_urls` (lines 55-109): try each URL in order; skip it when the
body is `None` or empty (`if not text`) or when zero entries parse; on the
first URL with entries, return up to `max_items` of them normalized, and stop. -/
def try_feed_urls (env : Env) (url_list : List String) (max_items : Nat)
    (debug_name : String) : List HeadlineRecord :=
  match url_list with
  | [] => []
  | url :: rest =>
    let res := fetch_feed_text env url
    match res.2.1 with
    | none => try_feed_urls env rest max_items debug_name
    | some text =>
      if text = "" then try_feed_urls env rest max_items debug_name
      else
        let parsed := parse_with_feedparser_from_text env text
        if parsed.entries.length = 0 then try_feed_urls env rest max_items debug_name
        else (parsed.entries.take max_items).map (normalizeEntry env debug_name)

/-- Line 115: `(r.get("link") or r.get("title") or "").strip()`. -/
def dedupKey (r : HeadlineRecord) : String :=
  pstrip (if r.link = "" then r.title else r.link)

/-- The loop of `dedupe` (lines 112-122), with the `seen` set as a list. -/
def dedupeGo (seen : List String) : List HeadlineRecord → List HeadlineRecord
  | [] => []
  | r :: rs =>
    if dedupKey r = "" then dedupeGo seen rs
    else if dedupKey r ∈ seen then dedupeGo seen rs
    else r :: dedupeGo (dedupKey r :: seen) rs

/-- `dedupe` (lines 111-122). -/
def dedupe (rows : List HeadlineRecord) : List HeadlineRecord :=
  dedupeGo [] rows

/-- Sort key used on line 154 (`lambda r: r["published_dt"]`); in the script it
is only applied after filtering to rows whose `published_dt` is present, so the
`getD` default is never reached there. -/
def dtKey (r : HeadlineRecord) : Int :=
  r.published_dt.getD 0

/-- Line 154: `all_rows.sort(key=..., reverse=True)` — a stable descending
sort, modelled by the (stable) insertion sort. -/
def sortDescByDt (rows : List HeadlineRecord) : List HeadlineRecord :=
  List.insertionSort (fun a b => dtKey b ≤ dtKey a) rows

-- -------------- main flow (lines 138-163) --------------

/-- The two `for source_name, urls in FEEDS.items()` loops of `main`:
per-source batches concatenated in configuration order. -/
def collectRows (env : Env) (max_items : Nat) : List HeadlineRecord :=
  (FEEDS.map (fun p => try_feed_urls env p.2 max_items p.1)).flatten

/-- `main` up to line 157: the mode branch (lines 141-155) followed by the
single `dedupe` call on line 157.  In global mode the filter/sort/truncate of
lines 153-155 runs BEFORE the dedupe of line 157. -/
def finalRows (env : Env) (mode : String) : List HeadlineRecord :=
  let all_rows :=
    if mode = "per_source" then collectRows env HEADLINES_PER_SOURCE
    else
      (sortDescByDt ((collectRows env MAX_PER_SOURCE_FOR_GLOBAL).filter
        (fun r => r.published_dt.isSome))).take TOTAL_GLOBAL_TOP
  dedupe all_rows

/-- Outcome of `main` after line 157: either the early return of lines
158-160 (diagnostic printed, no file written) or a save of the final rows. -/
inductive MainResult where
  | noHeadlines : MainResult
  | saved : List HeadlineRecord → MainResult
deriving DecidableEq

/-- `main` (lines 138-163), observed at the write-or-not boundary. -/
def mainRun (env : Env) (argv : List String) : MainResult :=
  let rows := finalRows env (MODE argv)
  if rows.isEmpty then MainResult.noHeadlines else MainResult.saved rows

-- ---- observation helpers over the try_feed_urls loop ----

/-- The body text one loop iteration of `try_feed_urls` sees for a URL. -/
def bodyOf (env : Env) (url : String) : Option String :=
  (fetch_feed_text env url).2.1

/-- The parsed entries one loop iteration of `try_feed_urls` obtains for a
URL: empty when there is no body, an empty body, or zero parsed entries —
exactly the three `continue` cases of lines 65-79. -/
def entriesOf (env : Env) (url : String) : List FeedEntry :=
  match bodyOf env url with
  | none => []
  | some t => if t = "" then [] else (env.feedparse t).entries

/-- The URLs `try_feed_urls` actually fetches: every URL up to and including
the first one whose iteration yields entries. -/
def attempted (env : Env) (url_list : List String) : List String :=
  match url_list with
  | [] => []
  | url :: rest => url :: (if (entriesOf env url).isEmpty then attempted env rest else [])

-- ---- definitions following the spec text (for comparison with the code) ----

/-- Selector as the spec §4.6 words it: PerSource is the identity; GlobalTop
discards undated records, sorts descending by timestamp, truncates to the
global limit. -/
def selectorSpec (mode : String) (rows : List HeadlineRecord) : List HeadlineRecord :=
  if mode = "per_source" then rows
  else (sortDescByDt (rows.filter (fun r => r.published_dt.isSome))).take TOTAL_GLOBAL_TOP

/-- The per-source item cap the mode dictates (spec §4.6, source lines 143/149). -/
def capFor (mode : String) : Nat :=
  if mode = "per_source" then HEADLINES_PER_SOURCE else MAX_PER_SOURCE_FOR_GLOBAL

/-- Pipeline order as the spec §2 words it: batches are concatenated, the
Deduplicator runs once on the concatenation, THEN the Selector applies the
mode policy.  Written from the spec sentence, for comparison with `finalRows`. -/
def specPipeline (env : Env) (mode : String) : List HeadlineRecord :=
  selectorSpec mode (dedupe (collectRows env (capFor mode)))

/-- Normalizer as the spec §4.4 words it, clause by clause. -/
def specNormalize (env : Env) (sourceName : String) (e : FeedEntry) : HeadlineRecord :=
  let publishedText := if (e.published.getD "") = "" then e.updated.getD "" else e.published.getD ""
  ⟨sourceName,
   pstrip (e.title.getD ""),
   pstrip (e.link.getD ""),
   publishedText,
   match e.published_parsed with
   | some t => env.dtOfTuple t
   | none => if publishedText = "" then none else env.dateutilParse publishedText⟩

-- ---- concrete worlds and records used to exercise the definitions ----

/-- Five dated entries, the first two sharing the link "a". -/
def gA1 : FeedEntry := ⟨some "A1", some "a", none, none, some (10, 0, 0, 0, 0, 0)⟩

def gA2 : FeedEntry := ⟨some "A2", some "a", none, none, some (9, 0, 0, 0, 0, 0)⟩

def gB : FeedEntry := ⟨some "B", some "b", none, none, some (8, 0, 0, 0, 0, 0)⟩

def gC : FeedEntry := ⟨some "C", some "c", none, none, some (7, 0, 0, 0, 0, 0)⟩

def gD : FeedEntry := ⟨some "D", some "d", none, none, some (6, 0, 0, 0, 0, 0)⟩

/-- A world where the TechCrunch feed answers with five entries (two sharing a
link) and every Economic Times candidate fails at transport. -/
def envDupTrunc : Env :=
  ⟨fun u => if u = "https://techcrunch.com/feed/" then Except.ok (200, "B", "xml")
            else Except.error "dns",
   fun t => if t = "B" then ⟨[gA1, gA2, gB, gC, gD], false⟩ else ⟨[], true⟩,
   fun t => some t.1,
   fun _ => none⟩

def w1 : FeedEntry := ⟨some "W1", some "l1", none, none, some (3, 0, 0, 0, 0, 0)⟩

def w2 : FeedEntry := ⟨some "W2", some "l2", none, none, some (2, 0, 0, 0, 0, 0)⟩

def w3 : FeedEntry := ⟨some "W3", some "l3", none, none, some (1, 0, 0, 0, 0, 0)⟩

/-- A parser oracle: the body "F" parses into three entries, all else into none. -/
def feedparseW : String → ParsedFeed :=
  fun t => if t = "F" then ⟨[w1, w2, w3], false⟩ else ⟨[], true⟩

def dtOfTupleW : (Int × Int × Int × Int × Int × Int) → Option Int :=
  fun t => some t.1

/-- A world where the first URL fails at transport and the second yields a
feed body with three entries. -/
def envWin : Env :=
  ⟨fun u => if u = "u2" then Except.ok (200, "F", "xml") else Except.error "dns",
   feedparseW, dtOfTupleW, fun _ => none⟩

/-- Same body "F" everywhere, status 200, content-type "xml". -/
def envS200 : Env :=
  ⟨fun _ => Except.ok (200, "F", "xml"), feedparseW, dtOfTupleW, fun _ => none⟩

/-- Same body "F" everywhere, but status 500 and another content-type. -/
def envS500 : Env :=
  ⟨fun _ => Except.ok (500, "F", "text/html"), feedparseW, dtOfTupleW, fun _ => none⟩

/-- A world with one transport failure, one empty body, and one HTML body
that parses into zero entries. -/
def envMix : Env :=
  ⟨fun u => if u = "v2" then Except.ok (200, "", "xml")
            else if u = "v3" then Except.ok (404, "<html>", "text/html")
            else Except.error "dns",
   fun _ => ⟨[], true⟩, fun _ => none, fun _ => none⟩

/-- A world where every request raises. -/
def envAllFail : Env :=
  ⟨fun _ => Except.error "down", fun _ => ⟨[], true⟩, fun _ => none, fun _ => none⟩

def rA : HeadlineRecord := ⟨"s1", "t1", "k", "", none⟩

def rA2 : HeadlineRecord := ⟨"s2", "t2", "k", "", none⟩

def rB : HeadlineRecord := ⟨"s1", "t3", "m", "", none⟩

def rows4 : List HeadlineRecord := [rA, rB, rA2]

/-- A record whose link is whitespace-only and whose title is non-empty. -/
def rWs : HeadlineRecord := ⟨"s", "t", " ", "", none⟩

/-- A record with empty link whose title equals the link of `rA`. -/
def rCross2 : HeadlineRecord := ⟨"s2", "k", "", "", none⟩

def rowsCross : List HeadlineRecord := [rA, rCross2]

def eTup : FeedEntry := ⟨some " T ", some " L ", some "Mon", none, some (7, 1, 2, 3, 4, 5)⟩

def eTxt : FeedEntry := ⟨none, none, some "Tue", some "ignored", none⟩

def eEmp : FeedEntry := ⟨none, none, none, none, none⟩

instance : IsTotal HeadlineRecord fun a b => dtKey b ≤ dtKey a :=
  ⟨fun a b => le_total (dtKey b) (dtKey a)⟩

instance : IsTrans HeadlineRecord fun a b => dtKey b ≤ dtKey a :=
  ⟨fun _ _ _ h1 h2 => le_trans h2 h1⟩

-- ---- lemmas about dedupe ----

theorem dedupeGo_sublist (seen : List String) (rows : List HeadlineRecord) :
    (dedupeGo seen rows).Sublist rows := by
  induction rows generalizing seen with
  | nil => simp [dedupeGo]
  | cons r rs ih =>
    simp only [dedupeGo]
    by_cases h1 : dedupKey r = ""
    · simpa [h1] using (ih seen).cons r
    · by_cases h2 : dedupKey r ∈ seen
      · simpa [h1, h2] using (ih seen).cons r
      · simpa [h1, h2] using (ih (dedupKey r :: seen)).cons₂ r

theorem mem_dedupeGo (seen : List String) (rows : List HeadlineRecord) :
    ∀ r ∈ dedupeGo seen rows, dedupKey r ≠ "" ∧ dedupKey r ∉ seen := by
  induction rows generalizing seen with
  | nil => simp [dedupeGo]
  | cons r rs ih =>
    intro x hx
    simp only [dedupeGo] at hx
    by_cases h1 : dedupKey r = ""
    · exact ih seen x (by simpa [h1] using hx)
    · by_cases h2 : dedupKey r ∈ seen
      · exact ih seen x (by simpa [h1, h2] using hx)
      · simp only [h1, h2, if_false, if_neg] at hx
        rcases List.mem_cons.mp hx with h | h
        · subst h; exact ⟨h1, h2⟩
        · have := ih (dedupKey r :: seen) x h
          exact ⟨this.1, fun hs => this.2 (List.mem_cons_of_mem _ hs)⟩

theorem dedupeGo_pairwise (seen : List String) (rows : List HeadlineRecord) :
    (dedupeGo seen rows).Pairwise (fun a b => dedupKey a ≠ dedupKey b) := by
  induction rows generalizing seen with
  | nil => simp [dedupeGo]
  | cons r rs ih =>
    simp only [dedupeGo]
    by_cases h1 : dedupKey r = ""
    · simpa [h1] using ih seen
    · by_cases h2 : dedupKey r ∈ seen
      · simpa [h1, h2] using ih seen
      · simp only [h1, h2, if_false, if_neg]
        refine List.Pairwise.cons ?_ (ih (dedupKey r :: seen))
        intro x hx hk
        exact (mem_dedupeGo _ _ x hx).2 (by simp [← hk])

theorem dedupeGo_find (seen : List String) (rows : List HeadlineRecord) :
    ∀ r ∈ dedupeGo seen rows,
      rows.find? (fun x => dedupKey x == dedupKey r) = some r := by
  induction rows generalizing seen with
  | nil => simp [dedupeGo]
  | cons r rs ih =>
    intro x hx
    simp only [dedupeGo] at hx
    by_cases h1 : dedupKey r = ""
    · have hx := (by simpa [h1] using hx : x ∈ dedupeGo seen rs)
      have hkey := (mem_dedupeGo seen rs x hx).1
      rw [List.find?_cons_of_neg, ih seen x hx]
      simp [h1]
      exact fun h => hkey h.symm
    · by_cases h2 : dedupKey r ∈ seen
      · have hx := (by simpa [h1, h2] using hx : x ∈ dedupeGo seen rs)
        have hni := (mem_dedupeGo seen rs x hx).2
        rw [List.find?_cons_of_neg, ih seen x hx]
        simp only [beq_iff_eq]
        intro h
        exact hni (h ▸ h2)
      · simp only [h1, h2, if_false, if_neg] at hx
        rcases List.mem_cons.mp hx with h | h
        · subst h
          exact List.find?_cons_of_pos _ (by simp)
        · have hni := (mem_dedupeGo (dedupKey r :: seen) rs x h).2
          rw [List.find?_cons_of_neg, ih (dedupKey r :: seen) x h]
          simp only [beq_iff_eq]
          intro he
          exact hni (by simp [he])

theorem dedupeGo_complete (seen : List String) (rows : List HeadlineRecord) :
    ∀ r ∈ rows, dedupKey r ≠ "" → dedupKey r ∉ seen →
      ∃ x ∈ dedupeGo seen rows, dedupKey x = dedupKey r := by
  induction rows generalizing seen with
  | nil => simp
  | cons r rs ih =>
    intro x hx hk hs
    simp only [dedupeGo]
    rcases List.mem_cons.mp hx with h | h
    · subst h
      simp only [hk, if_neg, hs, if_false]
      exact ⟨x, List.mem_cons_self _ _, rfl⟩
    · by_cases h1 : dedupKey r = ""
      · rw [if_pos h1]
        exact ih seen x h hk hs
      · by_cases h2 : dedupKey r ∈ seen
        · rw [if_neg h1, if_pos h2]
          exact ih seen x h hk hs
        · rw [if_neg h1, if_neg h2]
          by_cases he : dedupKey x = dedupKey r
          · exact ⟨r, List.mem_cons_self _ _, he.symm⟩
          · have ⟨y, hy, hky⟩ := ih (dedupKey r :: seen) x h hk (by simp [hs, he])
            exact ⟨y, List.mem_cons_of_mem _ hy, hky⟩

theorem dedupeGo_of_clean (seen : List String) (rows : List HeadlineRecord)
    (h1 : ∀ r ∈ rows, dedupKey r ≠ "" ∧ dedupKey r ∉ seen)
    (h2 : rows.Pairwise (fun a b => dedupKey a ≠ dedupKey b)) :
    dedupeGo seen rows = rows := by
  induction rows generalizing seen with
  | nil => simp [dedupeGo]
  | cons r rs ih =>
    have hr := h1 r (List.mem_cons_self _ _)
    simp only [dedupeGo, hr.1, if_neg, hr.2, if_false]
    congr 1
    refine ih (dedupKey r :: seen) ?_ (List.Pairwise.of_cons h2)
    intro x hx
    have hx1 := h1 x (List.mem_cons_of_mem _ hx)
    have hne := (List.pairwise_cons.mp h2).1 x hx
    refine ⟨hx1.1, ?_⟩
    simp only [List.mem_cons]
    rintro (h | h)
    · exact hne h.symm
    · exact hx1.2 h

-- ---- lemmas about try_feed_urls ----

theorem try_feed_urls_cons (env : Env) (u : String) (rest : List String)
    (n : Nat) (name : String) :
    try_feed_urls env (u :: rest) n name =
      if (entriesOf env u).isEmpty then try_feed_urls env rest n name
      else ((entriesOf env u).take n).map (normalizeEntry env name) := by
  simp only [try_feed_urls, entriesOf, bodyOf]
  cases h : (fetch_feed_text env u).2.1 with
  | none => simp
  | some t =>
    by_cases ht : t = ""
    · simp [ht]
    · cases hE : (env.feedparse t).entries with
      | nil => simp [parse_with_feedparser_from_text, hE, ht]
      | cons a as => simp [parse_with_feedparser_from_text, hE, ht]

theorem try_feed_urls_length_le (env : Env) (urls : List String) (n : Nat) (name : String) :
    (try_feed_urls env urls n name).length ≤ n := by
  induction urls with
  | nil => simp [try_feed_urls]
  | cons u rest ih =>
    rw [try_feed_urls_cons]
    by_cases h : (entriesOf env u).isEmpty
    · simpa [h] using ih
    · simp only [h, if_neg, Bool.false_eq_true, if_false, List.length_map, List.length_take]
      exact min_le_left _ _

theorem try_feed_urls_first_win (env : Env) (l₁ : List String) (u : String)
    (l₂ : List String) (n : Nat) (name : String)
    (hl : ∀ v ∈ l₁, entriesOf env v = []) (hu : entriesOf env u ≠ []) :
    try_feed_urls env (l₁ ++ u :: l₂) n name =
      ((entriesOf env u).take n).map (normalizeEntry env name) := by
  induction l₁ with
  | nil =>
    rw [List.nil_append, try_feed_urls_cons]
    simp [List.isEmpty_iff, hu]
  | cons v vs ih =>
    rw [List.cons_append, try_feed_urls_cons]
    have hv : entriesOf env v = [] := hl v (List.mem_cons_self _ _)
    simp only [hv, List.isEmpty_nil, if_true]
    exact ih (fun w hw => hl w (List.mem_cons_of_mem _ hw))

theorem attempted_first_win (env : Env) (l₁ : List String) (u : String) (l₂ : List String)
    (hl : ∀ v ∈ l₁, entriesOf env v = []) (hu : entriesOf env u ≠ []) :
    attempted env (l₁ ++ u :: l₂) = l₁ ++ [u] := by
  induction l₁ with
  | nil =>
    simp only [List.nil_append, attempted]
    simp [List.isEmpty_iff, hu]
  | cons v vs ih =>
    rw [List.cons_append]
    simp only [attempted]
    have hv : entriesOf env v = [] := hl v (List.mem_cons_self _ _)
    simp only [hv, List.isEmpty_nil, if_true]
    rw [ih (fun w hw => hl w (List.mem_cons_of_mem _ hw))]
    simp

theorem entriesOf_eq_nil_of_failed (env : Env) (u : String)
    (h : bodyOf env u = none ∨ bodyOf env u = some "" ∨
      ∃ t, bodyOf env u = some t ∧ (env.feedparse t).entries = []) :
    entriesOf env u = [] := by
  rcases h with h | h | ⟨t, ht, he⟩
  · simp [entriesOf, h]
  · simp [entriesOf, h]
  · simp [entriesOf, ht, he]

-- ---- lemmas about the sort and about environment congruence ----

theorem sortDescByDt_sorted (l : List HeadlineRecord) :
    (sortDescByDt l).Pairwise fun a b => dtKey b ≤ dtKey a :=
  List.sorted_insertionSort (fun a b => dtKey b ≤ dtKey a) l

theorem sortDescByDt_perm (l : List HeadlineRecord) :
    (sortDescByDt l).Perm l :=
  List.perm_insertionSort (fun a b => dtKey b ≤ dtKey a) l

theorem normalizeEntry_congr (env₁ env₂ : Env) (name : String) (e : FeedEntry)
    (h1 : env₁.dtOfTuple = env₂.dtOfTuple) (h2 : env₁.dateutilParse = env₂.dateutilParse) :
    normalizeEntry env₁ name e = normalizeEntry env₂ name e := by
  simp [normalizeEntry, h1, h2]

theorem entriesOf_congr (env₁ env₂ : Env) (u : String)
    (hb : bodyOf env₁ u = bodyOf env₂ u) (hp : env₁.feedparse = env₂.feedparse) :
    entriesOf env₁ u = entriesOf env₂ u := by
  unfold entriesOf
  rw [hb, hp]

-- ---- claim theorems ----

/-- C4, counterexample: the claim says the key of a record is its link if
non-empty (else its title) and that only a record with BOTH link and title
empty is dropped entirely.  The code strips the chosen key AFTER selecting it
(line 115), so a record whose link is whitespace-only and whose title is
non-empty is dropped entirely, although neither field is empty. -/
theorem C4_counterexample : rWs.link ≠ "" ∧ rWs.title ≠ "" ∧ dedupe [rWs] = [] := by
  decide

/-- C4 (amended): dedupe returns an order-preserving subsequence never longer
than the input, in which the first occurrence of each key wins; the key of a
record is the whitespace-trimmed value of (its link if non-empty, else its
title); a record whose key is empty after trimming — in particular one with
both link and title empty — is dropped entirely. -/
theorem C4_dedupe_contract (rows : List HeadlineRecord) :
    ((dedupe rows).Sublist rows) ∧
    ((dedupe rows).length ≤ rows.length) ∧
    (∀ r ∈ dedupe rows, dedupKey r ≠ "") ∧
    (∀ r ∈ dedupe rows, rows.find? (fun x => dedupKey x == dedupKey r) = some r) ∧
    (∀ r ∈ rows, dedupKey r ≠ "" → ∃ x ∈ dedupe rows, dedupKey x = dedupKey r) :=
  ⟨dedupeGo_sublist [] rows,
   (dedupeGo_sublist [] rows).length_le,
   fun r hr => (mem_dedupeGo [] rows r hr).1,
   dedupeGo_find [] rows,
   fun r hr hk => dedupeGo_complete [] rows r hr hk (by simp)⟩

/-- C4 witness: the contract applied to the concrete list `rows4`, whose third
record duplicates the link of the first. -/
theorem C4_dedupe_contract_witness :
    (dedupe rows4).Sublist rows4 ∧
    rows4.find? (fun x => dedupKey x == dedupKey rA) = some rA ∧
    (∃ x ∈ dedupe rows4, dedupKey x = dedupKey rA2) :=
  ⟨(C4_dedupe_contract rows4).1,
   (C4_dedupe_contract rows4).2.2.2.1 rA (by decide),
   (C4_dedupe_contract rows4).2.2.2.2 rA2 (by decide) (by decide)⟩

/-- C8: deduplication is idempotent — `dedupe (dedupe X) = dedupe X` for every
record sequence `X`. -/
theorem C8_dedupe_idempotent (rows : List HeadlineRecord) :
    dedupe (dedupe rows) = dedupe rows :=
  dedupeGo_of_clean [] (dedupe rows)
    (fun r hr => ⟨(mem_dedupeGo [] rows r hr).1, by simp⟩)
    (dedupeGo_pairwise [] rows)

/-- C10: dedup keys taken from link and from title share one namespace — the
surviving records have pairwise distinct keys under the single key function
(trimmed link-if-non-empty-else-title), and every survivor is the FIRST input
record bearing its key, regardless of which field supplied the key. -/
theorem C10_shared_key_namespace (rows : List HeadlineRecord) :
    ((dedupe rows).Pairwise fun a b => dedupKey a ≠ dedupKey b) ∧
    ∀ r ∈ dedupe rows, rows.find? (fun x => dedupKey x == dedupKey r) = some r :=
  ⟨dedupeGo_pairwise [] rows, dedupeGo_find [] rows⟩

/-- C10 witness: in `rowsCross` the second record has an empty link and a
title equal to the first record's link; it is dropped as a duplicate. -/
theorem C10_shared_key_namespace_witness :
    rowsCross.find? (fun x => dedupKey x == dedupKey rA) = some rA ∧
    dedupe rowsCross = [rA] ∧ dedupKey rCross2 = dedupKey rA :=
  ⟨(C10_shared_key_namespace rowsCross).2 rA (by decide), by decide, by decide⟩

/-- C2: the Source Resolver returns at most `max_items` records, taken in
parser order from the winning URL; whenever the URL list splits as
`l₁ ++ u :: l₂` with every URL of `l₁` yielding no entries and `u` yielding
some, the result is the normalization of the first `max_items` entries of `u`
and no URL after `u` is attempted — even if `u` yielded fewer than
`max_items` entries. -/
theorem C2_resolver_contract (env : Env) (urls : List String) (n : Nat) (name : String) :
    (try_feed_urls env urls n name).length ≤ n ∧
    ∀ l₁ u l₂, urls = l₁ ++ u :: l₂ →
      (∀ v ∈ l₁, entriesOf env v = []) → entriesOf env u ≠ [] →
      try_feed_urls env urls n name = ((entriesOf env u).take n).map (normalizeEntry env name) ∧
      attempted env urls = l₁ ++ [u] := by
  refine ⟨try_feed_urls_length_le env urls n name, ?_⟩
  intro l₁ u l₂ he hl hu
  subst he
  exact ⟨try_feed_urls_first_win env l₁ u l₂ n name hl hu,
         attempted_first_win env l₁ u l₂ hl hu⟩

/-- C2 witness: the spec §8 scenario — URL "u1" fails at transport, URL "u2"
yields three entries, `max_items = 4`; exactly the three records come back and
both URLs (and only they) were attempted. -/
theorem C2_resolver_contract_witness :
    (try_feed_urls envWin ["u1", "u2"] 4 "A"
        = ((entriesOf envWin "u2").take 4).map (normalizeEntry envWin "A") ∧
      attempted envWin ["u1", "u2"] = ["u1"] ++ ["u2"]) ∧
    (try_feed_urls envWin ["u1", "u2"] 4 "A").length = 3 :=
  ⟨(C2_resolver_contract envWin ["u1", "u2"] 4 "A").2 ["u1"] "u2" [] rfl
      (by decide) (by decide),
   by decide⟩

/-- C6: if every candidate URL yields no body, an empty body, or zero parsed
entries, the resolver returns the empty sequence (total, no escaping error);
and the Fetcher converts any transport-level failure into a plain result
value `(None, None, "error: ...")`. -/
theorem C6_total_failure (env : Env) (urls : List String) (n : Nat) (name : String)
    (h : ∀ u ∈ urls, bodyOf env u = none ∨ bodyOf env u = some "" ∨
      ∃ t, bodyOf env u = some t ∧ (env.feedparse t).entries = []) :
    try_feed_urls env urls n name = [] ∧
    ∀ url e, env.httpGet url = Except.error e →
      fetch_feed_text env url = (none, none, "error: " ++ e) := by
  constructor
  · induction urls with
    | nil => simp [try_feed_urls]
    | cons u rest ih =>
      rw [try_feed_urls_cons]
      have hu := entriesOf_eq_nil_of_failed env u (h u (List.mem_cons_self _ _))
      simp only [hu, List.isEmpty_nil, if_true]
      exact ih (fun v hv => h v (List.mem_cons_of_mem _ hv))
  · intro url e he
    simp [fetch_feed_text, he]

/-- C6 witness: URL "v1" raises at transport, "v2" answers with an empty body,
"v3" answers 404 with an HTML body parsing into zero entries; the resolver
returns the empty sequence, and the Fetcher turned the raised error of "v1"
into a result value. -/
theorem C6_total_failure_witness :
    try_feed_urls envMix ["v1", "v2", "v3"] 4 "S" = [] ∧
    fetch_feed_text envMix "v1" = (none, none, "error: " ++ "dns") := by
  have h : ∀ u ∈ (["v1", "v2", "v3"] : List String),
      bodyOf envMix u = none ∨ bodyOf envMix u = some "" ∨
      ∃ t, bodyOf envMix u = some t ∧ (envMix.feedparse t).entries = [] := by
    intro u hu
    fin_cases hu
    · exact Or.inl (by decide)
    · exact Or.inr (Or.inl (by decide))
    · exact Or.inr (Or.inr ⟨"<html>", by decide, by decide⟩)
  exact ⟨(C6_total_failure envMix ["v1", "v2", "v3"] 4 "S" h).1,
         (C6_total_failure envMix ["v1", "v2", "v3"] 4 "S" h).2 "v1" "dns" rfl⟩

/-- C9: the records extracted from a URL attempt do not depend on the HTTP
status code or content-type — two worlds whose fetches carry the same bodies
(and whose library oracles agree) produce the same record sequence, whatever
the statuses. -/
theorem C9_status_blind (env₁ env₂ : Env) (urls : List String) (n : Nat) (name : String)
    (hp : env₁.feedparse = env₂.feedparse)
    (hd : env₁.dtOfTuple = env₂.dtOfTuple)
    (hu : env₁.dateutilParse = env₂.dateutilParse)
    (hb : ∀ u ∈ urls, bodyOf env₁ u = bodyOf env₂ u) :
    try_feed_urls env₁ urls n name = try_feed_urls env₂ urls n name := by
  induction urls with
  | nil => rfl
  | cons u rest ih =>
    have hmap : normalizeEntry env₁ name = normalizeEntry env₂ name :=
      funext (fun e => normalizeEntry_congr env₁ env₂ name e hd hu)
    rw [try_feed_urls_cons, try_feed_urls_cons,
        entriesOf_congr env₁ env₂ u (hb u (List.mem_cons_self _ _)) hp,
        ih (fun v hv => hb v (List.mem_cons_of_mem _ hv)), hmap]

/-- C9 witness: status 200 with content-type "xml" versus status 500 with
content-type "text/html", same body — identical record output. -/
theorem C9_status_blind_witness :
    try_feed_urls envS200 ["u"] 4 "S" = try_feed_urls envS500 ["u"] 4 "S" ∧
    (fetch_feed_text envS200 "u").1 = some 200 ∧
    (fetch_feed_text envS500 "u").1 = some 500 :=
  ⟨C9_status_blind envS200 envS500 ["u"] 4 "S" rfl rfl rfl (by decide),
   by decide, by decide⟩

/-- C5: the Normalizer agrees with the spec §4.4 mapping clause by clause —
source is the configured name; title and link are the trimmed entry fields
(empty when absent); published is the published text, else the updated text,
else empty; published_at comes from the parsed-date tuple when supplied, else
from textual parsing of a non-empty published string, and is absent when the
chosen attempt fails or no date material exists. -/
theorem C5_normalizer (env : Env) (name : String) (e : FeedEntry) :
    normalizeEntry env name e = specNormalize env name e ∧
    (normalizeEntry env name e).source = name ∧
    (normalizeEntry env name e).title = pstrip (e.title.getD "") ∧
    (normalizeEntry env name e).link = pstrip (e.link.getD "") ∧
    (∀ s, e.published = some s → s ≠ "" → (normalizeEntry env name e).published = s) ∧
    ((e.published = none ∨ e.published = some "") →
      (normalizeEntry env name e).published = e.updated.getD "") ∧
    (∀ t, e.published_parsed = some t →
      (normalizeEntry env name e).published_dt = env.dtOfTuple t) ∧
    (e.published_parsed = none → (normalizeEntry env name e).published ≠ "" →
      (normalizeEntry env name e).published_dt
        = env.dateutilParse (normalizeEntry env name e).published) ∧
    (e.published_parsed = none → (normalizeEntry env name e).published = "" →
      (normalizeEntry env name e).published_dt = none) := by
  refine ⟨rfl, rfl, rfl, rfl, ?_, ?_, ?_, ?_, ?_⟩
  · intro s hs hne
    simp [normalizeEntry, hs, hne]
  · rintro (h | h) <;> simp [normalizeEntry, h]
  · intro t ht
    simp [normalizeEntry, ht]
  · intro h0 hne
    simp only [normalizeEntry, h0] at hne ⊢
    rw [if_neg hne]
  · intro h0 hemp
    simp only [normalizeEntry, h0] at hemp ⊢
    rw [if_pos hemp]

/-- C5 witness: the three date paths at concrete entries — a supplied tuple,
textual parsing of a non-empty published string, and no date material — plus
the published-text preference, in the world `envS200`. -/
theorem C5_normalizer_witness :
    (normalizeEntry envS200 "S" eTup).published_dt = envS200.dtOfTuple (7, 1, 2, 3, 4, 5) ∧
    (normalizeEntry envS200 "S" eTxt).published_dt
      = envS200.dateutilParse (normalizeEntry envS200 "S" eTxt).published ∧
    (normalizeEntry envS200 "S" eEmp).published_dt = none ∧
    (normalizeEntry envS200 "S" eTup).published = "Mon" :=
  ⟨(C5_normalizer envS200 "S" eTup).2.2.2.2.2.2.1 (7, 1, 2, 3, 4, 5) rfl,
   (C5_normalizer envS200 "S" eTxt).2.2.2.2.2.2.2.1 rfl (by decide),
   (C5_normalizer envS200 "S" eEmp).2.2.2.2.2.2.2.2 rfl (by decide),
   (C5_normalizer envS200 "S" eTup).2.2.2.2.1 "Mon" rfl (by decide)⟩

/-- C7: if the final record set after deduplication is empty, the run takes
the diagnostic early-return path and writes neither output file. -/
theorem C7_empty_no_write (env : Env) (argv : List String)
    (h : finalRows env (MODE argv) = []) :
    mainRun env argv = MainResult.noHeadlines := by
  simp [mainRun, h]

/-- C7 witness: in a world where every request raises, the run ends in the
no-write diagnostic outcome. -/
theorem C7_empty_no_write_witness :
    mainRun envAllFail ["news_scraper.py"] = MainResult.noHeadlines :=
  C7_empty_no_write envAllFail ["news_scraper.py"] (by decide)

/-- C1, counterexample: the claim says Deduplicator runs on the concatenation
and only afterwards the Selector's GlobalTop policy runs — i.e. the pipeline
is `selector ∘ dedupe ∘ concat` (`specPipeline`).  In the code (lines
146-157) the filter/sort/truncate of global mode runs BEFORE the single
`dedupe` call.  In a world with five dated entries of which the top two share
a link, the code yields 3 records while the claimed order yields 4. -/
theorem C1_counterexample :
    finalRows envDupTrunc "global_top" ≠ specPipeline envDupTrunc "global_top" ∧
    (finalRows envDupTrunc "global_top").length = 3 ∧
    (specPipeline envDupTrunc "global_top").length = 4 := by
  decide

/-- C1 (amended): the pipeline applies Deduplicator exactly once per run, but
AFTER the Selector's mode policy: the run equals
`dedupe (selector mode (concatenated batches))`; in particular, in GlobalTop
mode the discard-undated/sort/truncate step operates on the concatenated,
not-yet-deduplicated set, and the single dedupe runs on its truncated output. -/
theorem C1_dedupe_after_selector (env : Env) (mode : String) :
    finalRows env mode = dedupe (selectorSpec mode (collectRows env (capFor mode))) := by
  by_cases h : mode = "per_source"
  · simp [finalRows, selectorSpec, capFor, h]
  · simp [finalRows, selectorSpec, capFor, h]

/-- C3: in GlobalTop mode the final output contains only records with a
present `published_at`, is sorted non-increasing by it, and is never longer
than the global limit (4). -/
theorem C3_globaltop_output (env : Env) :
    (∀ r ∈ finalRows env "global_top", r.published_dt.isSome = true) ∧
    ((finalRows env "global_top").Pairwise fun a b => dtKey b ≤ dtKey a) ∧
    (finalRows env "global_top").length ≤ TOTAL_GLOBAL_TOP := by
  have hrw : finalRows env "global_top" =
      dedupe ((sortDescByDt ((collectRows env MAX_PER_SOURCE_FOR_GLOBAL).filter
        (fun r => r.published_dt.isSome))).take TOTAL_GLOBAL_TOP) := by
    simp [finalRows]
  rw [hrw]
  refine ⟨?_, ?_, ?_⟩
  · intro r hr
    have h1 := (dedupeGo_sublist [] _).subset hr
    have h2 := (List.take_sublist _ _).subset h1
    have h3 := (sortDescByDt_perm _).mem_iff.mp h2
    exact (List.mem_filter.mp h3).2
  · exact List.Pairwise.sublist
      ((dedupeGo_sublist [] _).trans (List.take_sublist _ _))
      (sortDescByDt_sorted _)
  · exact le_trans (dedupeGo_sublist [] _).length_le (List.length_take_le _ _)

/-- C3 witness: the GlobalTop guarantees instantiated in the concrete world
`envDupTrunc`, including one concrete member of the output. -/
theorem C3_globaltop_output_witness :
    (⟨"TechCrunch", "A1", "a", "", some 10⟩ : HeadlineRecord).published_dt.isSome = true ∧
    (finalRows envDupTrunc "global_top").length ≤ TOTAL_GLOBAL_TOP :=
  ⟨(C3_globaltop_output envDupTrunc).1 ⟨"TechCrunch", "A1", "a", "", some 10⟩ (by decide),
   (C3_globaltop_output envDupTrunc).2.2⟩
